import Mathlib

/-!
Verification of the Document-Analyzer RAG pipeline (backend/services/ai_services.py,
backend/routers/chat.py, backend/routers/upload.py).

Python strings are modelled as `List Char` (`Txt`), because the corresponding
`String` builtins are not kernel-reducible.  Each helper below mirrors the
semantics of the Python string operation named in its comment.  Fallible
external calls (PyPDF2, python-docx, bytes.decode, Cohere, Pinecone, Gemini)
are modelled as `Except Txt _` values carried in an environment record: an
`.error e` value stands for the call raising an exception with message `e`,
exactly where the source code can raise.  Floating-point similarity scores and
confidences are idealised as exact rationals.
-/

namespace DocAnalyzer

abbrev Txt := List Char

instance exceptDecEq {α β : Type} [DecidableEq α] [DecidableEq β] :
    DecidableEq (Except α β)
  | .ok a, .ok b =>
    if h : a = b then .isTrue (by rw [h]) else .isFalse (by intro hc; cases hc; exact h rfl)
  | .ok _, .error _ => .isFalse (by intro h; cases h)
  | .error _, .ok _ => .isFalse (by intro h; cases h)
  | .error a, .error b =>
    if h : a = b then .isTrue (by rw [h]) else .isFalse (by intro hc; cases hc; exact h rfl)

/-- Python `str.strip()` (leading/trailing whitespace removal). -/
def trimL (l : Txt) : Txt :=
  ((l.dropWhile Char.isWhitespace).reverse.dropWhile Char.isWhitespace).reverse

/-- Python `str.lower()`. -/
def lowerL (l : Txt) : Txt := l.map Char.toLower

/-- Python `str.split(sep)` for a two-character separator `[a, b]`
(both separators used by the source, `"\n\n"` and `". "`, have length two).
Greedy left-to-right scan, empty fields kept, like CPython's `str.split`. -/
def splitOn2 (a b : Char) : Txt → List Txt
  | [] => [[]]
  | [c] => [[c]]
  | c :: d :: rest =>
    if c = a ∧ d = b then
      [] :: splitOn2 a b rest
    else
      match splitOn2 a b (d :: rest) with
      | [] => [[c]]
      | x :: xs => (c :: x) :: xs

/-- `needle` occurs at the start of `hay` (Python `str.startswith`). -/
def startsWithL : Txt → Txt → Bool
  | [], _ => true
  | _ :: _, [] => false
  | a :: as, b :: bs => a = b && startsWithL as bs

/-- Python substring containment `needle in hay`. -/
def containsL (needle : Txt) : Txt → Bool
  | [] => needle.isEmpty
  | c :: rest => startsWithL needle (c :: rest) || containsL needle rest

/-- Python `'\n'`-to-space `str.replace('\n', ' ')`. -/
def newlineToSpace (l : Txt) : Txt := l.map (fun c => if c = '\n' then ' ' else c)

/-- Python `' '.join(parts)`. -/
def joinSp : List Txt → Txt
  | [] => []
  | [s] => s
  | s :: t :: rest => s ++ ' ' :: joinSp (t :: rest)

/-- The extension of `os.path.splitext(name)`: the suffix starting at the
last dot (empty when the name has no dot).  The source only dispatches on
`.pdf` / `.docx` / `.doc` / `.txt`, so `splitext`'s leading-dot corner case
is irrelevant here. -/
def extOfFilename (name : Txt) : Txt :=
  let rev := name.reverse
  let tail := rev.takeWhile (fun c => c ≠ '.')
  if tail.length = rev.length then [] else '.' :: tail.reverse

/-- Outcomes of the fallible leaf calls used by
`AIServices.extract_text_from_file` (ai_services.py:127-172) for one file:
`pdfPages` is the list of `page.extract_text()` results of
`PyPDF2.PdfReader(...).pages` (`.error` = PyPDF2 raised), `docxParas` the
list of `paragraph.text` of `docx.Document(...).paragraphs`, and `decoded`
the result of `file_content.decode('utf-8', errors='ignore')`. -/
structure ExtractEnv where
  pdfPages : Except Txt (List Txt)
  docxParas : Except Txt (List Txt)
  decoded : Except Txt Txt

/-- `AIServices._extract_text_from_pdf` (ai_services.py:150-160):
per-page text concatenated with a `'\n'` after every page; a PyPDF2
exception is logged and re-raised. -/
def pdfExtractText (env : ExtractEnv) : Except Txt Txt :=
  env.pdfPages.map (fun pages => (pages.map (fun p => p ++ [ '\n' ])).flatten)

/-- `AIServices._extract_text_from_docx` (ai_services.py:162-172). -/
def docxExtractText (env : ExtractEnv) : Except Txt Txt :=
  env.docxParas.map (fun paras => (paras.map (fun p => p ++ [ '\n' ])).flatten)

/-- The placeholder returned when even the lossy decode fallback raises:
Python `f"[Could not extract text from {filename}]"`. -/
def couldNotExtractMsg (filename : Txt) : Txt :=
  ( "[Could not extract text from ").data ++ filename ++ [ ']' ]

/-- The `except` clause of `extract_text_from_file` (ai_services.py:142-148):
on any exception in the dispatched attempt, retry the lossy decode; if that
also raises, return the bracketed placeholder. -/
def recoverDecode (env : ExtractEnv) (filename : Txt) (attempt : Except Txt Txt) :
    Except Txt Txt :=
  match attempt with
  | .ok t => .ok t
  | .error _ =>
    match env.decoded with
    | .ok t => .ok t
    | .error _ => .ok (couldNotExtractMsg filename)

/-- `AIServices.extract_text_from_file` (ai_services.py:127-148): dispatch on
the lower-cased extension, with a bare `decode('utf-8', errors='ignore')`
fallback when the format-specific path raises, and the bracketed placeholder
when even that decode raises. -/
def extract_text_from_file (env : ExtractEnv) (filename : Txt) : Except Txt Txt :=
  recoverDecode env filename
    (if extOfFilename (lowerL filename) = ( ".pdf").data then pdfExtractText env
     else if extOfFilename (lowerL filename) = ( ".docx").data ∨
         extOfFilename (lowerL filename) = ( ".doc").data then docxExtractText env
     else if extOfFilename (lowerL filename) = ( ".txt").data then env.decoded
     else env.decoded)

/-! ### Chunker: `AIServices.split_text` (ai_services.py:298-349)

The splitter's running state.  Each completed chunk is recorded as its list
of sentences; the string the source appends to `chunks` is `joinSp` of that
list (`' '.join(current_chunk)`), applied on emission by `split_text` below.
`size` mirrors the Python `current_size` accumulator. -/
structure ChunkSt where
  chunks : List (List Txt)
  cur : List Txt
  size : Nat
deriving DecidableEq

/-- `sum(len(s) + 1 for s in current_chunk)`. -/
def sizeSum (l : List Txt) : Nat := (l.map (fun s => s.length + 1)).sum

/-- Sentence normalisation inside the loop (ai_services.py:317-324):
strip, skip empties, re-append a `'.'` unless the sentence already ends in
`'.'`, `'!'` or `'?'`. -/
def normSentence (raw : Txt) : Option Txt :=
  if (trimL raw).isEmpty then none
  else if ((trimL raw).getLast? = some '.') ∨ ((trimL raw).getLast? = some '!') ∨
      ((trimL raw).getLast? = some '?') then some (trimL raw)
  else some (trimL raw ++ [ '.' ])

/-- One loop iteration for an already-normalised sentence
(ai_services.py:326-342): close the chunk when the sentence would overflow
it, seeding the next chunk with `current_chunk[-2:]` when `overlap > 0` and
the closed chunk has more than two sentences. -/
def stepS (maxs overlap : Nat) (st : ChunkSt) (sentence : Txt) : ChunkSt :=
  if st.size + (sentence.length + 1) > maxs ∧ st.cur ≠ [] then
    if 0 < overlap ∧ 2 < st.cur.length then
      { chunks := st.chunks ++ [st.cur],
        cur := st.cur.drop (st.cur.length - 2) ++ [sentence],
        size := sizeSum (st.cur.drop (st.cur.length - 2) ++ [sentence]) }
    else
      { chunks := st.chunks ++ [st.cur], cur := [sentence], size := sentence.length + 1 }
  else
    { chunks := st.chunks, cur := st.cur ++ [sentence],
      size := st.size + (sentence.length + 1) }

/-- One raw-sentence iteration: normalise, skipping sentences that strip to
empty (`continue`). -/
def stepRaw (maxs overlap : Nat) (st : ChunkSt) (raw : Txt) : ChunkSt :=
  match normSentence raw with
  | none => st
  | some s => stepS maxs overlap st s

/-- One paragraph iteration (ai_services.py:310-315): strip, skip empty
paragraphs, flatten newlines, split into sentences on `". "`. -/
def procPara (maxs overlap : Nat) (st : ChunkSt) (para : Txt) : ChunkSt :=
  if (trimL para).isEmpty then st
  else (splitOn2 '.' ' ' (newlineToSpace (trimL para))).foldl (stepRaw maxs overlap) st

/-- `split_text`, at the granularity of chunk sentence-lists: empty-input
guard, paragraph split on `"\n\n"`, the nested loops, and the final
`if current_chunk: chunks.append(...)`. -/
def split_textLists (text : Txt) (maxs overlap : Nat) : List (List Txt) :=
  if (trimL text).isEmpty then []
  else
    let st := (splitOn2 '\n' '\n' text).foldl (procPara maxs overlap) ⟨[], [], 0⟩
    st.chunks ++ (if st.cur.isEmpty then [] else [st.cur])

/-- `AIServices.split_text` (ai_services.py:298-349): the chunk strings, each
emitted chunk being `' '.join` of its sentences.  Defaults in the source are
`max_chunk_size=1000`, `overlap=100`. -/
def split_text (text : Txt) (maxs overlap : Nat) : List Txt :=
  (split_textLists text maxs overlap).map joinSp

/-- The normalised sentence stream the nested loops of `split_text` iterate
over, in order. -/
def sentencesOf (text : Txt) : List Txt :=
  ((splitOn2 '\n' '\n' text).map (fun para =>
    (splitOn2 '.' ' ' (newlineToSpace (trimL para))).filterMap normSentence)).flatten

/-- Checks the (corrected) overlap-seeding relation between every pair of
consecutive chunks: whenever the earlier chunk has more than two sentences,
the later chunk starts with the earlier chunk's trailing two sentences. -/
def seededByLastTwo : List (List Txt) → Bool
  | [] => true
  | [_] => true
  | c₁ :: c₂ :: rest =>
    (decide (c₁.length ≤ 2) || (c₂.take 2 = c₁.drop (c₁.length - 2))) &&
      seededByLastTwo (c₂ :: rest)

/-! ### Vector index model (Pinecone) and the RAG pipeline
(`AIServices.create_embeddings`, `AIServices.query_rag`, ai_services.py:351-520) -/

/-- Vector metadata written by `create_embeddings` (ai_services.py:400-404). -/
structure VMeta where
  document_id : Txt
  chunk_index : Nat
  text : Txt
deriving DecidableEq

/-- A stored vector record (id, embedding values, metadata). -/
structure VRecord where
  id : Txt
  values : List ℚ
  metadata : VMeta
deriving DecidableEq

/-- One retrieval match as consumed by `query_rag`
(`match.score`, `match.metadata`). -/
structure RMatch where
  score : ℚ
  metadata : VMeta
deriving DecidableEq

/-- The dictionary `query_rag` returns: `answer`, `sources`, `confidence`,
plus the `chunks_used` key that is present only on the retrieval-success
path. -/
structure QueryResult where
  answer : Txt
  sources : List Nat
  confidence : ℚ
  chunks_used : Option Nat
deriving DecidableEq

/-- Pinecone upsert of a single vector: overwrite the record(s) carrying the
same id, else append. -/
def upsertOne (store : List VRecord) (v : VRecord) : List VRecord :=
  if store.any (fun r => r.id = v.id) then
    store.map (fun r => if r.id = v.id then v else r)
  else store ++ [v]

/-- Insert a match into a descending-score list (model of the index's
similarity-descending result order). -/
def insertDesc (m : RMatch) : List RMatch → List RMatch
  | [] => [m]
  | x :: xs => if x.score ≤ m.score then m :: x :: xs else x :: insertDesc m xs

/-- Sort matches by descending score. -/
def sortDesc (l : List RMatch) : List RMatch := l.foldr insertDesc []

/-- The Pinecone query issued at ai_services.py:454-459: similarity search
restricted by the mandatory `filter={"document_id": {"$eq": document_id}}`,
returning at most `top_k` matches ordered by descending score.  `sim` is the
index's similarity measure (cosine in production), abstract here. -/
def indexQuery (sim : List ℚ → List ℚ → ℚ) (store : List VRecord) (vec : List ℚ)
    (docId : Txt) (k : Nat) : List RMatch :=
  let filtered := store.filter (fun r => r.metadata.document_id = docId)
  let scored := filtered.map (fun r => ({ score := sim vec r.values, metadata := r.metadata } : RMatch))
  (sortDesc scored).take k

/-- First success among the three nested Cohere `embed` attempts
(newer API → legacy API → basic call); the last attempt's exception
propagates (ai_services.py:368-389 and 432-449). -/
def firstEmbed (e₁ e₂ e₃ : Except Txt (List (List ℚ))) : Except Txt (List (List ℚ)) :=
  match e₁ with
  | .ok r => .ok r
  | .error _ =>
    match e₂ with
    | .ok r => .ok r
    | .error _ => e₃

/-- Outcomes of the external calls `query_rag` makes: the three query-embed
attempts, whether `pinecone_index.query` raises, the Gemini generation
result (`response.text`; `.error` = the call raised), and the index
contents/similarity. -/
structure RagEnv where
  pineconeAvailable : Bool
  store : List VRecord
  sim : List ℚ → List ℚ → ℚ
  embedQ1 : Except Txt (List (List ℚ))
  embedQ2 : Except Txt (List (List ℚ))
  embedQ3 : Except Txt (List (List ℚ))
  indexErr : Option Txt
  genResult : Except Txt Txt

def noInfoMsg : Txt :=
  ( "I could not find relevant information in the document to answer your question.").data

def ragUnavailableMsg : Txt :=
  ( "RAG functionality is not available - Pinecone connection failed.").data

def ragErrorMsgPre : Txt :=
  ( "Sorry, I encountered an error while searching the document: ").data

/-- Confidence aggregation at ai_services.py:504-510:
`min(sum(scores) / len(scores), 1.0)`. -/
def ragConfidence (scores : List ℚ) : ℚ := min (scores.sum / scores.length) 1

/-- The body of `query_rag`'s `try` block (ai_services.py:423-512), as a
fallible computation: query embedding (`response.embeddings[0]` raises an
IndexError on an empty embedding list), the filtered Pinecone query, the
zero-match early return, and answer generation.  The Gemini prompt is pure
string formatting of (context, question) and is not modelled character by
character; `env.genResult` is the outcome of that generation call. -/
def queryRagAttempt (env : RagEnv) (docId : Txt) (k : Nat) : Except Txt QueryResult :=
  match firstEmbed env.embedQ1 env.embedQ2 env.embedQ3 with
  | .error e => .error e
  | .ok embeds =>
    match embeds.head? with
    | none => .error ( "list index out of range").data
    | some qvec =>
      match env.indexErr with
      | some e => .error e
      | none =>
        let ms := indexQuery env.sim env.store qvec docId k
        if ms.isEmpty then
          .ok { answer := noInfoMsg, sources := [], confidence := 0, chunks_used := none }
        else
          match env.genResult with
          | .error e => .error e
          | .ok ans =>
            .ok { answer := ans,
                  sources := ms.map (fun m => m.metadata.chunk_index),
                  confidence := ragConfidence (ms.map (fun m => m.score)),
                  chunks_used := some ms.length }

/-- `AIServices.query_rag` (ai_services.py:421-520): the Pinecone-unavailable
early return, the `try` body, and the catch-all `except` converting any
exception into the apology answer with confidence `0.0` and empty sources. -/
def query_rag (env : RagEnv) (docId : Txt) (k : Nat) : QueryResult :=
  if env.pineconeAvailable = false then
    { answer := ragUnavailableMsg, sources := [], confidence := 0, chunks_used := none }
  else
    match queryRagAttempt env docId k with
    | .ok r => r
    | .error e =>
      { answer := ragErrorMsgPre ++ e, sources := [], confidence := 0, chunks_used := none }

/-- `f"{document_id}_{i}"` (ai_services.py:396). -/
def vecId (docId : Txt) (i : Nat) : Txt := docId ++ '_' :: Nat.toDigits 10 i

/-- The vector list built at ai_services.py:393-405:
`for i, (chunk, embedding) in enumerate(zip(valid_chunks, embeddings))`. -/
def buildVectors (docId : Txt) : Nat → List (Txt × List ℚ) → List VRecord
  | _, [] => []
  | i, (c, e) :: rest =>
    { id := vecId docId i, values := e,
      metadata := { document_id := docId, chunk_index := i, text := c.take 1000 } }
      :: buildVectors docId (i + 1) rest

/-- `valid_chunks = [chunk for chunk in text_chunks if chunk.strip()]`. -/
def validChunks (chunks : List Txt) : List Txt :=
  chunks.filter (fun c => !(trimL c).isEmpty)

/-- Fuel-driven splitting into batches of `p + 1` elements; each step
consumes at least one element, so `fuel = l.length` never runs out. -/
def toBatchesAux (p : Nat) : Nat → List α → List (List α)
  | _, [] => []
  | 0, l => [l]
  | fuel + 1, x :: xs => (x :: xs.take p) :: toBatchesAux p fuel (xs.drop p)

/-- Batches of at most `p + 1` elements (the source uses `batch_size = 100`). -/
def toBatches (p : Nat) (l : List α) : List (List α) := toBatchesAux p l.length l

/-- Outcomes of the external calls `create_embeddings` makes. -/
structure CreateEnv where
  pineconeAvailable : Bool
  embedD1 : Except Txt (List (List ℚ))
  embedD2 : Except Txt (List (List ℚ))
  embedD3 : Except Txt (List (List ℚ))

/-- `AIServices.create_embeddings` (ai_services.py:351-419) acting on the
index contents: guard clauses, chunk filtering, the three embed attempts
(total failure is caught by the outer `except`, returning `False`), vector
construction, and batched upsert.  Returns the success flag and the updated
store. -/
def create_embeddings (env : CreateEnv) (chunks : List Txt) (docId : Txt)
    (store : List VRecord) : Bool × List VRecord :=
  if chunks.isEmpty then (false, store)
  else if env.pineconeAvailable = false then (false, store)
  else
    let valid := validChunks chunks
    if valid.isEmpty then (false, store)
    else
      match firstEmbed env.embedD1 env.embedD2 env.embedD3 with
      | .error _ => (false, store)
      | .ok embeds =>
        let vectors := buildVectors docId 0 (valid.zip embeds)
        (true, (toBatches 99 vectors).foldl (fun st b => b.foldl upsertOne st) store)

/-! ### The chat route fallback: `ask_question` (routers/chat.py:17-124) -/

/-- Outcomes of the external calls the direct-extraction fallback of
`ask_question` makes: whether the second document lookup finds a row, the
GCS download (may raise), the stored file's extraction environment and title
(`doc_row['title'] or 'document'`), and the direct Gemini answer on the
truncated extracted text (`.error` = the call raised).  The best-effort
on-the-fly `create_embeddings` call inside the fallback only mutates the
vector store and cannot change the response (its exception is caught), so it
is not part of the response computation. -/
structure AskEnv where
  rag : RagEnv
  docRow : Bool
  download : Except Txt Unit
  fbExtract : ExtractEnv
  title : Option Txt
  genDirect : Except Txt Txt

/-- The fallback confidence literal `0.5` (routers/chat.py:85), written via
`Rat.divInt` so that it evaluates under kernel reduction. -/
def half : ℚ := Rat.divInt 1 2

/-- The response `ask_question` builds (routers/chat.py:36-118): the
`query_rag` call, then the direct-extraction fallback when the response has
no sources and confidence `0.0`; every exception inside the fallback is
caught and leaves the response unchanged. -/
def askQuestionResponse (env : AskEnv) (docId : Txt) : QueryResult :=
  let rag := query_rag env.rag docId 5
  if rag.sources.isEmpty ∧ rag.confidence = 0 then
    if env.docRow then
      match env.download with
      | .error _ => rag
      | .ok _ =>
        match extract_text_from_file env.fbExtract (env.title.getD ( "document").data) with
        | .error _ => rag
        | .ok textE =>
          if ¬textE.isEmpty ∧ 50 ≤ (trimL textE).length then
            match env.genDirect with
            | .error _ => rag
            | .ok a =>
              if ¬a.isEmpty then
                { answer := a, sources := [], confidence := half, chunks_used := none }
              else rag
          else rag
    else rag
  else rag

/-! ### Status derivation: `get_upload_status` (routers/upload.py:440-481) -/

/-- The substring inspection of `get_upload_status` (routers/upload.py:454-463)
mapping a document's stored summary (possibly NULL) to a status string. -/
def statusOf (summary : Option Txt) : Txt :=
  let s := summary.getD []
  if containsL ( "Processing").data s || containsL ( "processing").data s then
    ( "processing").data
  else if containsL ( "failed").data (lowerL s) || containsL ( "error").data (lowerL s) then
    ( "failed").data
  else if containsL ( "completed").data (lowerL s) || (!s.isEmpty && decide (50 < s.length)) then
    ( "completed").data
  else
    ( "pending").data

/-- The terminal failure payload written by `process_document_background`
(routers/upload.py:185-186):
`f'AI processing failed: {str(e)[:200]}. Document uploaded but analysis incomplete.'`. -/
def failurePayload (e : Txt) : Txt :=
  ( "AI processing failed: ").data ++ e.take 200 ++
    ( ". Document uploaded but analysis incomplete.").data

/-! ### Concrete inputs used by counterexamples and witnesses -/

/-- An extraction environment in which every strategy raises. -/
def envAllFail : ExtractEnv :=
  { pdfPages := .error ( "err").data, docxParas := .error ( "err").data,
    decoded := .error ( "err").data }

/-- A PDF whose primary parser succeeds but yields only 3 characters,
with every other strategy raising. -/
def envShortPdf : ExtractEnv :=
  { pdfPages := .ok [( "hi").data], docxParas := .error ( "err").data,
    decoded := .error ( "err").data }

/-- A 60-character extraction result (above the 50-character fallback
threshold). -/
def envLongTxt : ExtractEnv :=
  { pdfPages := .error ( "err").data, docxParas := .error ( "err").data,
    decoded := .ok ( "aaaaaaaaaaaaaaaaaaaaaaaaaaaaaaaaaaaaaaaaaaaaaaaaaaaaaaaaaaaa").data }

/-- A 3-character extraction result (below the 50-character fallback
threshold). -/
def envTinyTxt : ExtractEnv :=
  { pdfPages := .error ( "err").data, docxParas := .error ( "err").data,
    decoded := .ok ( "abc").data }

/-- One indexed vector for document `"d"`. -/
def recD : VRecord :=
  { id := ( "d_0").data, values := [1],
    metadata := { document_id := ( "d").data, chunk_index := 0, text := ( "tx").data } }

/-- A RAG environment in which embedding and retrieval succeed (one match
for document `"d"`) but answer generation raises. -/
def ragEnvGenFail : RagEnv :=
  { pineconeAvailable := true, store := [recD], sim := fun _ _ => 1,
    embedQ1 := .ok [[1]], embedQ2 := .error ( "e").data, embedQ3 := .error ( "e").data,
    indexErr := none, genResult := .error ( "boom").data }

/-- A RAG environment in which everything succeeds but the index holds no
vectors at all (zero matches for every document). -/
def ragEnvNoVectors : RagEnv :=
  { pineconeAvailable := true, store := [], sim := fun _ _ => 1,
    embedQ1 := .ok [[1]], embedQ2 := .error ( "e").data, embedQ3 := .error ( "e").data,
    indexErr := none, genResult := .ok ( "ctx answer").data }

/-- A RAG environment in which all three embed attempts raise. -/
def ragEnvEmbedFail : RagEnv :=
  { pineconeAvailable := true, store := [recD], sim := fun _ _ => 1,
    embedQ1 := .error ( "e1").data, embedQ2 := .error ( "e2").data,
    embedQ3 := .error ( "e3").data, indexErr := none, genResult := .ok ( "a").data }

/-- A RAG environment in which embedding succeeds (vectors exist for
document `"d"`) and generation succeeds. -/
def ragEnvOk : RagEnv :=
  { pineconeAvailable := true, store := [recD], sim := fun _ _ => 1,
    embedQ1 := .ok [[1]], embedQ2 := .error ( "e").data, embedQ3 := .error ( "e").data,
    indexErr := none, genResult := .ok ( "ctx answer").data }

/-- Fallback environment: retrieval found a match but generation raised
(so `query_rag` reports empty sources and confidence 0), and the
direct-extraction fallback then succeeds end to end. -/
def askEnvGenFail : AskEnv :=
  { rag := ragEnvGenFail, docRow := true, download := .ok (),
    fbExtract := envLongTxt, title := some ( "t.txt").data,
    genDirect := .ok ( "X").data }

/-- Fallback environment: retrieval succeeded with zero matches, the
re-extracted text is sufficient, and the direct answer succeeds. -/
def askEnvZeroMatch : AskEnv :=
  { rag := ragEnvNoVectors, docRow := true, download := .ok (),
    fbExtract := envLongTxt, title := some ( "t.txt").data,
    genDirect := .ok ( "X").data }

/-- Fallback environment: zero matches and sufficient re-extracted text,
but the direct generation call raises. -/
def askEnvFbGenFail : AskEnv :=
  { rag := ragEnvNoVectors, docRow := true, download := .ok (),
    fbExtract := envLongTxt, title := some ( "t.txt").data,
    genDirect := .error ( "gerr").data }

/-- Fallback environment: zero matches and the re-extracted text is too
short to be usable. -/
def askEnvTinyText : AskEnv :=
  { rag := ragEnvNoVectors, docRow := true, download := .ok (),
    fbExtract := envTinyTxt, title := some ( "t.txt").data,
    genDirect := .ok ( "X").data }

/-- Embedding environment for `create_embeddings` with two embeddings. -/
def createEnvOk : CreateEnv :=
  { pineconeAvailable := true, embedD1 := .ok [[1], [2]],
    embedD2 := .error ( "e").data, embedD3 := .error ( "e").data }

/-- A stale vector left over from an earlier, longer chunking of `"doc"`. -/
def staleRec : VRecord :=
  { id := ( "doc_7").data, values := [5],
    metadata := { document_id := ( "doc").data, chunk_index := 7, text := ( "stale").data } }

/-! ### Invariants used to reason about the chunker's fold -/

/-- Every recorded chunk and every pending sentence is non-empty. -/
def chunkNonEmptyInv (st : ChunkSt) : Prop :=
  (∀ ch ∈ st.chunks, ch ≠ [] ∧ ∀ s ∈ ch, s ≠ []) ∧ (∀ s ∈ st.cur, s ≠ [])

/-- A chunk (as a sentence list) respects the size bound unless it is one
single over-long sentence satisfying `Q`. -/
def chunkBound (m : Nat) (Q : Txt → Prop) (ch : List Txt) : Prop :=
  (joinSp ch).length ≤ m ∨ ∃ s, ch = [s] ∧ m < s.length ∧ Q s

/-- The bound invariant carried through the fold (`overlap = 0` case):
the size accumulator is exact, and every chunk — emitted or pending —
satisfies `chunkBound`. -/
def chunkBoundInv (m : Nat) (Q : Txt → Prop) (st : ChunkSt) : Prop :=
  st.size = sizeSum st.cur ∧ (∀ ch ∈ st.chunks, chunkBound m Q ch) ∧
  (st.cur ≠ [] → chunkBound m Q st.cur)

/-- The seeding invariant carried through the fold (`overlap > 0` case):
emitted chunks are pairwise seeded, and the pending chunk still starts with
the trailing two sentences of the last emitted chunk when that one had more
than two sentences. -/
def seedLinkInv (st : ChunkSt) : Prop :=
  seededByLastTwo st.chunks = true ∧
  ∀ lc, st.chunks.getLast? = some lc → 2 < lc.length →
    st.cur.take 2 = lc.drop (lc.length - 2) ∧ 2 ≤ st.cur.length

/-! ## Theorems -/

/-! ### Shared helper lemmas -/

theorem recoverDecode_isOk (env : ExtractEnv) (fn : Txt) (a : Except Txt Txt) :
    (recoverDecode env fn a).isOk = true := by
  cases a with
  | ok t => rfl
  | error e =>
    cases hd : env.decoded with
    | ok t => simp [recoverDecode, hd, Except.isOk, Except.toBool]
    | error e₂ => simp [recoverDecode, hd, Except.isOk, Except.toBool]

theorem couldNotExtractMsg_ne_nil (fn : Txt) : couldNotExtractMsg fn ≠ [] := by
  intro h
  have hlen := congrArg List.length h
  simp [couldNotExtractMsg, List.length_append] at hlen

/-! ### C5 — extraction failure policy -/

/-- C5: `extract_text_from_file` never raises (the model's result is always
`.ok`); but when every strategy fails it returns the non-empty bracketed
placeholder `"[Could not extract text from {filename}]"` rather than the
empty string the claim states. -/
theorem extract_text_total_failure :
    (∀ (env : ExtractEnv) (fn : Txt), (extract_text_from_file env fn).isOk = true) ∧
    (∀ (env : ExtractEnv) (fn : Txt),
      env.pdfPages.isOk = false → env.docxParas.isOk = false → env.decoded.isOk = false →
      extract_text_from_file env fn = .ok (couldNotExtractMsg fn) ∧
        couldNotExtractMsg fn ≠ []) := by
  constructor
  · intro env fn
    exact recoverDecode_isOk env fn _
  · intro env fn hp hd hdec
    refine ⟨?_, couldNotExtractMsg_ne_nil fn⟩
    cases hpd : env.pdfPages with
    | ok v => rw [hpd] at hp; simp [Except.isOk, Except.toBool] at hp
    | error e₁ =>
      cases hdo : env.docxParas with
      | ok v => rw [hdo] at hd; simp [Except.isOk, Except.toBool] at hd
      | error e₂ =>
        cases hde : env.decoded with
        | ok v => rw [hde] at hdec; simp [Except.isOk, Except.toBool] at hdec
        | error e₃ =>
          unfold extract_text_from_file
          split_ifs <;>
            simp [recoverDecode, pdfExtractText, docxExtractText, hpd, hdo, hde, Except.map]

/-- C5 counterexample: with every strategy raising, the result is the
placeholder message, not the empty string. -/
theorem extract_text_total_failure_cex :
    envAllFail.pdfPages.isOk = false ∧ envAllFail.docxParas.isOk = false ∧
    envAllFail.decoded.isOk = false ∧
    extract_text_from_file envAllFail ( "doc.pdf").data =
      .ok (couldNotExtractMsg ( "doc.pdf").data) ∧
    extract_text_from_file envAllFail ( "doc.pdf").data ≠ .ok [] := by
  decide

theorem extract_text_total_failure_witness :
    (extract_text_from_file envAllFail ( "doc.pdf").data).isOk = true ∧
    (extract_text_from_file envAllFail ( "doc.txt").data =
        .ok (couldNotExtractMsg ( "doc.txt").data) ∧
      couldNotExtractMsg ( "doc.txt").data ≠ []) :=
  ⟨extract_text_total_failure.1 envAllFail (( "doc.pdf").data),
   extract_text_total_failure.2 envAllFail (( "doc.txt").data)
     (by decide) (by decide) (by decide)⟩

/-! ### C6 — PDF extraction shape and the absent second parser -/

/-- C6 (amended): PDF extraction concatenates per-page text with newline
separators, and its result is returned as-is by `extract_text_from_file`
regardless of its length — there is no second PDF parser; when the primary
parser raises, the caller falls back to the lossy byte decode instead. -/
theorem pdf_extraction_shape :
    (∀ (env : ExtractEnv) (pages : List Txt), env.pdfPages = .ok pages →
      pdfExtractText env = .ok ((pages.map (fun p => p ++ [ '\n' ])).flatten) ∧
      extract_text_from_file env ( "x.pdf").data =
        .ok ((pages.map (fun p => p ++ [ '\n' ])).flatten)) ∧
    (∀ (env : ExtractEnv) (e t : Txt), env.pdfPages = .error e → env.decoded = .ok t →
      extract_text_from_file env ( "x.pdf").data = .ok t) := by
  have hext : extOfFilename (lowerL (( "x.pdf").data)) = ( ".pdf").data := by decide
  constructor
  · intro env pages h
    have hpdf : pdfExtractText env = .ok ((pages.map (fun p => p ++ [ '\n' ])).flatten) := by
      simp [pdfExtractText, h, Except.map]
    refine ⟨hpdf, ?_⟩
    unfold extract_text_from_file
    rw [hext]
    simp [recoverDecode, hpdf]
  · intro env e t he ht
    unfold extract_text_from_file
    rw [hext]
    simp [recoverDecode, pdfExtractText, he, ht, Except.map]

/-- C6 counterexample: a primary-parser result of 3 characters (far below
the claimed ~50-character threshold) is returned unchanged; no second
parser is consulted. -/
theorem pdf_no_second_fallback_cex :
    extract_text_from_file envShortPdf ( "scan.pdf").data = .ok ( "hi\n").data ∧
    ( "hi\n").data.length < 50 := by
  decide

theorem pdf_extraction_shape_witness :
    (pdfExtractText envShortPdf =
        .ok (([( "hi").data].map (fun p => p ++ [ '\n' ])).flatten) ∧
      extract_text_from_file envShortPdf ( "x.pdf").data =
        .ok (([( "hi").data].map (fun p => p ++ [ '\n' ])).flatten)) ∧
    extract_text_from_file envTinyTxt ( "x.pdf").data = .ok ( "abc").data :=
  ⟨pdf_extraction_shape.1 envShortPdf [( "hi").data] (by decide),
   pdf_extraction_shape.2 envTinyTxt (( "err").data) (( "abc").data)
     (by decide) (by decide)⟩

/-! ### C2 — `query_rag` converts operational failures into answers -/

/-- C2: with Pinecone available, an operational failure of embedding (all
three attempts raise), of the index query, or of generation never escapes
`query_rag`: in each case the result is a `QueryResult` with confidence 0,
empty sources, and the apology answer carrying the exception message. -/
theorem query_rag_error_channel :
    (∀ (env : RagEnv) (d : Txt) (k : Nat) (e : Txt), env.pineconeAvailable = true →
      firstEmbed env.embedQ1 env.embedQ2 env.embedQ3 = .error e →
      query_rag env d k =
        { answer := ragErrorMsgPre ++ e, sources := [], confidence := 0,
          chunks_used := none }) ∧
    (∀ (env : RagEnv) (d : Txt) (k : Nat) (e : Txt) (embeds : List (List ℚ))
        (qvec : List ℚ), env.pineconeAvailable = true →
      firstEmbed env.embedQ1 env.embedQ2 env.embedQ3 = .ok embeds →
      embeds.head? = some qvec → env.indexErr = some e →
      query_rag env d k =
        { answer := ragErrorMsgPre ++ e, sources := [], confidence := 0,
          chunks_used := none }) ∧
    (∀ (env : RagEnv) (d : Txt) (k : Nat) (e : Txt) (embeds : List (List ℚ))
        (qvec : List ℚ), env.pineconeAvailable = true →
      firstEmbed env.embedQ1 env.embedQ2 env.embedQ3 = .ok embeds →
      embeds.head? = some qvec → env.indexErr = none →
      (indexQuery env.sim env.store qvec d k).isEmpty = false →
      env.genResult = .error e →
      query_rag env d k =
        { answer := ragErrorMsgPre ++ e, sources := [], confidence := 0,
          chunks_used := none }) := by
  refine ⟨?_, ?_, ?_⟩
  · intro env d k e hp he
    simp [query_rag, queryRagAttempt, hp, he]
  · intro env d k e embeds qvec hp he hh hi
    simp [query_rag, queryRagAttempt, hp, he, hh, hi]
  · intro env d k e embeds qvec hp he hh hi hm hg
    simp [query_rag, queryRagAttempt, hp, he, hh, hi, hm, hg]

theorem query_rag_error_channel_witness :
    query_rag ragEnvEmbedFail ( "d").data 5 =
      { answer := ragErrorMsgPre ++ ( "e3").data, sources := [], confidence := 0,
        chunks_used := none } ∧
    query_rag ragEnvGenFail ( "d").data 5 =
      { answer := ragErrorMsgPre ++ ( "boom").data, sources := [], confidence := 0,
        chunks_used := none } :=
  ⟨query_rag_error_channel.1 ragEnvEmbedFail (( "d").data) 5 (( "e3").data)
     (by decide) (by decide),
   query_rag_error_channel.2.2 ragEnvGenFail (( "d").data) 5 (( "boom").data)
     [[1]] [1] (by decide) (by decide) (by decide) (by decide) (by decide) (by decide)⟩

/-! ### C10 — status derivation masks failures as `processing` -/

theorem startsWithL_append (n h b : Txt) (hs : startsWithL n h = true) :
    startsWithL n (h ++ b) = true := by
  induction n generalizing h with
  | nil => rfl
  | cons c cs ih =>
    cases h with
    | nil => simp [startsWithL] at hs
    | cons d ds =>
      simp only [startsWithL, Bool.and_eq_true, decide_eq_true_eq] at hs
      simp only [List.cons_append, startsWithL, Bool.and_eq_true, decide_eq_true_eq]
      exact ⟨hs.1, ih ds hs.2⟩

theorem containsL_nil_needle (b : Txt) : containsL [] b = true := by
  cases b with
  | nil => rfl
  | cons c rest => simp [containsL, startsWithL]

theorem containsL_append_left (n a b : Txt) (hc : containsL n a = true) :
    containsL n (a ++ b) = true := by
  induction a with
  | nil =>
    simp only [containsL, List.isEmpty_iff] at hc
    subst hc
    exact containsL_nil_needle b
  | cons c rest ih =>
    simp only [containsL, Bool.or_eq_true] at hc
    rcases hc with hs | hr
    · simp only [List.cons_append, containsL, Bool.or_eq_true]
      exact Or.inl (by simpa using startsWithL_append n (c :: rest) b hs)
    · simp only [List.cons_append, containsL, Bool.or_eq_true]
      exact Or.inr (ih hr)

/-- C10: any summary containing `"processing"` or `"Processing"` is
classified as status `processing` by `get_upload_status`; in particular the
terminal failure payload `"AI processing failed: ..."` written by the
ingestion background task is always reported as `processing`, never as
`failed`. -/
theorem upload_status_processing_mask :
    (∀ s : Txt,
      (containsL ( "Processing").data s || containsL ( "processing").data s) = true →
      statusOf (some s) = ( "processing").data) ∧
    (∀ e : Txt, statusOf (some (failurePayload e)) = ( "processing").data) := by
  have base : ∀ s : Txt,
      (containsL ( "Processing").data s || containsL ( "processing").data s) = true →
      statusOf (some s) = ( "processing").data := by
    intro s hc
    simp only [statusOf, Option.getD]
    rw [if_pos hc]
  refine ⟨base, ?_⟩
  intro e
  apply base
  have hpre : containsL ( "processing").data ( "AI processing failed: ").data = true := by
    decide
  have : containsL ( "processing").data (failurePayload e) = true := by
    unfold failurePayload
    rw [List.append_assoc]
    exact containsL_append_left _ _ _ hpre
  simp [this]

theorem upload_status_processing_mask_witness :
    statusOf (some ( "Processing document with AI...").data) = ( "processing").data ∧
    statusOf (some (failurePayload ( "boom").data)) = ( "processing").data :=
  ⟨upload_status_processing_mask.1 (( "Processing document with AI...").data) (by decide),
   upload_status_processing_mask.2 (( "boom").data)⟩

/-! ### C7 — confidence aggregation -/

/-- C7: the confidence `query_rag` reports on the retrieval-success path is
the fixed aggregation `min(mean score, 1)`; for scores in `[0, 1]` it lies
in `[0, 1]`, and it is monotone in each individual score (hence in the
maximum score with the others held fixed). -/
theorem rag_confidence_policy :
    (∀ scores : List ℚ, scores ≠ [] → (∀ s ∈ scores, 0 ≤ s ∧ s ≤ 1) →
      0 ≤ ragConfidence scores ∧ ragConfidence scores ≤ 1) ∧
    (∀ (l₁ l₂ : List ℚ) (x y : ℚ), x ≤ y →
      ragConfidence (l₁ ++ x :: l₂) ≤ ragConfidence (l₁ ++ y :: l₂)) ∧
    (∀ (env : RagEnv) (d : Txt) (k : Nat) (embeds : List (List ℚ)) (qvec : List ℚ)
        (a : Txt), env.pineconeAvailable = true →
      firstEmbed env.embedQ1 env.embedQ2 env.embedQ3 = .ok embeds →
      embeds.head? = some qvec → env.indexErr = none →
      (indexQuery env.sim env.store qvec d k).isEmpty = false →
      env.genResult = .ok a →
      (query_rag env d k).confidence =
        ragConfidence ((indexQuery env.sim env.store qvec d k).map (fun m => m.score))) := by
  refine ⟨?_, ?_, ?_⟩
  · intro scores hne hb
    have hlen : 0 < (scores.length : ℚ) := by
      have : 0 < scores.length := List.length_pos.mpr hne
      exact_mod_cast this
    constructor
    · apply le_min
      · apply div_nonneg
        · exact List.sum_nonneg (fun x hx => (hb x hx).1)
        · exact hlen.le
      · norm_num
    · exact min_le_right _ _
  · intro l₁ l₂ x y hxy
    unfold ragConfidence
    have hlen : ((l₁ ++ x :: l₂).length : ℚ) = ((l₁ ++ y :: l₂).length : ℚ) := by
      simp [List.length_append]
    have hsum : (l₁ ++ x :: l₂).sum ≤ (l₁ ++ y :: l₂).sum := by
      simp only [List.sum_append, List.sum_cons]
      have := add_le_add_left (add_le_add_right hxy l₂.sum) l₁.sum
      linarith
    have hpos : (0 : ℚ) ≤ ((l₁ ++ y :: l₂).length : ℚ) := by positivity
    rw [hlen]
    exact min_le_min (div_le_div_of_nonneg_right hsum hpos) le_rfl
  · intro env d k embeds qvec a hp he hh hi hm hg
    simp [query_rag, queryRagAttempt, hp, he, hh, hi, hm, hg]

theorem rag_confidence_policy_witness :
    (0 ≤ ragConfidence [1] ∧ ragConfidence [1] ≤ 1) ∧
    ragConfidence [(0 : ℚ)] ≤ ragConfidence [(1 : ℚ)] ∧
    (query_rag ragEnvOk ( "d").data 5).confidence =
      ragConfidence ((indexQuery ragEnvOk.sim ragEnvOk.store [1] ( "d").data 5).map
        (fun m => m.score)) :=
  ⟨rag_confidence_policy.1 [1] (by decide) (by decide),
   rag_confidence_policy.2.1 [] [] 0 1 (by decide),
   rag_confidence_policy.2.2 ragEnvOk (( "d").data) 5 [[1]] [1] (( "ctx answer").data)
     (by decide) (by decide) (by decide) (by decide) (by decide) (by decide)⟩

/-! ### C8 — namespace isolation of index queries -/

theorem mem_insertDesc {m x : RMatch} {l : List RMatch} (h : x ∈ insertDesc m l) :
    x = m ∨ x ∈ l := by
  induction l with
  | nil => simpa [insertDesc] using h
  | cons a rest ih =>
    by_cases hc : a.score ≤ m.score
    · simp only [insertDesc, if_pos hc, List.mem_cons] at h
      simp only [List.mem_cons]
      tauto
    · simp only [insertDesc, if_neg hc, List.mem_cons] at h
      rcases h with h | h
      · exact Or.inr (by simp [h])
      · rcases ih h with h' | h'
        · exact Or.inl h'
        · exact Or.inr (List.mem_cons_of_mem a h')

theorem mem_sortDesc {x : RMatch} {l : List RMatch} (h : x ∈ sortDesc l) : x ∈ l := by
  induction l with
  | nil => simp [sortDesc] at h
  | cons a rest ih =>
    simp only [sortDesc, List.foldr_cons] at h
    rcases mem_insertDesc h with h' | h'
    · simp [h']
    · exact List.mem_cons_of_mem a (ih h')

/-- C8: every match returned by the (mandatorily `document_id`-filtered)
index query belongs to the queried document; consequently a query for a
document with no vectors returns zero matches even when other documents
have vectors, and `query_rag` then answers with the canonical
no-information result. -/
theorem rag_namespace_isolation :
    (∀ (sim : List ℚ → List ℚ → ℚ) (store : List VRecord) (vec : List ℚ)
        (dB : Txt) (k : Nat) (m : RMatch), m ∈ indexQuery sim store vec dB k →
      m.metadata.document_id = dB) ∧
    (∀ (env : RagEnv) (dB : Txt) (k : Nat) (embeds : List (List ℚ)) (qvec : List ℚ),
      env.pineconeAvailable = true →
      firstEmbed env.embedQ1 env.embedQ2 env.embedQ3 = .ok embeds →
      embeds.head? = some qvec → env.indexErr = none →
      (∀ r ∈ env.store, r.metadata.document_id ≠ dB) →
      query_rag env dB k =
        { answer := noInfoMsg, sources := [], confidence := 0, chunks_used := none }) := by
  constructor
  · intro sim store vec dB k m hm
    unfold indexQuery at hm
    have hm' := mem_sortDesc (List.mem_of_mem_take hm)
    rcases List.mem_map.mp hm' with ⟨r, hr, hrm⟩
    have := List.mem_filter.mp hr
    rw [← hrm]
    simpa using this.2
  · intro env dB k embeds qvec hp he hh hi hnone
    have hfilter : env.store.filter (fun r => r.metadata.document_id = dB) = [] := by
      apply List.filter_eq_nil_iff.mpr
      intro r hr
      simpa using hnone r hr
    have hq : indexQuery env.sim env.store qvec dB k = [] := by
      unfold indexQuery
      rw [hfilter]
      simp [sortDesc]
    simp [query_rag, queryRagAttempt, hp, he, hh, hi, hq]

theorem rag_namespace_isolation_witness :
    (∀ m ∈ indexQuery ragEnvOk.sim ragEnvOk.store [1] ( "d").data 5,
      m.metadata.document_id = ( "d").data) ∧
    query_rag ragEnvOk ( "b").data 5 =
      { answer := noInfoMsg, sources := [], confidence := 0, chunks_used := none } :=
  ⟨fun m hm => rag_namespace_isolation.1 ragEnvOk.sim ragEnvOk.store [1] (( "d").data) 5 m hm,
   rag_namespace_isolation.2 ragEnvOk (( "b").data) 5 [[1]] [1]
     (by decide) (by decide) (by decide) (by decide) (by decide)⟩

/-! ### C9 — vector records written by `create_embeddings` -/

theorem foldl_toBatchesAux {α β : Type} (f : β → α → β) (p : Nat) :
    ∀ (fuel : Nat) (l : List α) (s : β),
      (toBatchesAux p fuel l).foldl (fun st b => b.foldl f st) s = l.foldl f s := by
  intro fuel
  induction fuel with
  | zero =>
    intro l s
    cases l with
    | nil => rfl
    | cons x xs => rfl
  | succ n ih =>
    intro l s
    cases l with
    | nil => rfl
    | cons x xs =>
      simp only [toBatchesAux, List.foldl_cons]
      rw [ih]
      rw [← List.foldl_append, List.take_append_drop]

theorem foldl_toBatches {α β : Type} (f : β → α → β) (p : Nat) (l : List α) (s : β) :
    (toBatches p l).foldl (fun st b => b.foldl f st) s = l.foldl f s :=
  foldl_toBatchesAux f p l.length l s

theorem mem_upsertOne_of_ne {r v : VRecord} {store : List VRecord}
    (hr : r ∈ store) (hne : r.id ≠ v.id) : r ∈ upsertOne store v := by
  unfold upsertOne
  split_ifs with h
  · exact List.mem_map.mpr ⟨r, hr, by simp [hne]⟩
  · exact List.mem_append_left _ hr

theorem mem_foldl_upsertOne {r : VRecord} :
    ∀ (vs : List VRecord) (store : List VRecord), r ∈ store →
      (∀ v ∈ vs, r.id ≠ v.id) → r ∈ vs.foldl upsertOne store := by
  intro vs
  induction vs with
  | nil => intro store hr _; exact hr
  | cons v rest ih =>
    intro store hr hne
    simp only [List.foldl_cons]
    exact ih (upsertOne store v)
      (mem_upsertOne_of_ne hr (hne v (List.mem_cons_self v rest)))
      (fun w hw => hne w (List.mem_cons_of_mem v hw))

theorem buildVectors_ids (d : Txt) :
    ∀ (ps : List (Txt × List ℚ)) (i : Nat),
      (buildVectors d i ps).map VRecord.id = (List.range' i ps.length).map (vecId d) := by
  intro ps
  induction ps with
  | nil => intro i; rfl
  | cons p rest ih =>
    intro i
    cases p with
    | mk c e =>
      simp only [buildVectors, List.map_cons, List.length_cons, List.range'_succ]
      rw [ih (i + 1)]

theorem buildVectors_meta (d : Txt) :
    ∀ (ps : List (Txt × List ℚ)) (i : Nat) (v : VRecord), v ∈ buildVectors d i ps →
      v.metadata.document_id = d ∧ v.id = vecId d v.metadata.chunk_index ∧
      ∃ c e, (c, e) ∈ ps ∧ v.metadata.text = c.take 1000 := by
  intro ps
  induction ps with
  | nil => intro i v hv; simp [buildVectors] at hv
  | cons p rest ih =>
    intro i v hv
    cases p with
    | mk c e =>
      simp only [buildVectors, List.mem_cons] at hv
      rcases hv with hv | hv
      · subst hv
        refine ⟨rfl, rfl, c, e, by simp, rfl⟩
      · rcases ih (i + 1) v hv with ⟨h₁, h₂, c', e', hc', h₃⟩
        exact ⟨h₁, h₂, c', e', List.mem_cons_of_mem _ hc', h₃⟩

/-- C9: on a successful run of `create_embeddings`, the vectors written for
`document_id` have ids `"{document_id}_{i}"` for the dense indices
`i = 0, 1, ...` in chunk order; each record's metadata carries the document
id, its chunk index, and a 1000-character excerpt of the corresponding
chunk; the store is updated by upsert (so re-processing the same document id
rewrites the same ids); and any pre-existing vector whose id is not among
the newly written ids survives untouched — stale vectors are not purged. -/
theorem create_embeddings_invariants (env : CreateEnv) (chunks : List Txt)
    (docId : Txt) (store : List VRecord) (embeds : List (List ℚ))
    (hp : env.pineconeAvailable = true)
    (hE : firstEmbed env.embedD1 env.embedD2 env.embedD3 = .ok embeds)
    (hV : validChunks chunks ≠ []) :
    (create_embeddings env chunks docId store).1 = true ∧
    (create_embeddings env chunks docId store).2 =
      (buildVectors docId 0 ((validChunks chunks).zip embeds)).foldl upsertOne store ∧
    (buildVectors docId 0 ((validChunks chunks).zip embeds)).map VRecord.id =
      (List.range ((validChunks chunks).zip embeds).length).map (vecId docId) ∧
    (∀ v ∈ buildVectors docId 0 ((validChunks chunks).zip embeds),
      v.metadata.document_id = docId ∧ v.id = vecId docId v.metadata.chunk_index ∧
      ∃ c ∈ validChunks chunks, v.metadata.text = c.take 1000) ∧
    (∀ r ∈ store,
      (∀ v ∈ buildVectors docId 0 ((validChunks chunks).zip embeds), r.id ≠ v.id) →
      r ∈ (create_embeddings env chunks docId store).2) := by
  have hchunks : chunks.isEmpty = false := by
    cases chunks with
    | nil => exact absurd rfl hV
    | cons c rest => rfl
  have hvalid : (validChunks chunks).isEmpty = false := by
    cases hvc : validChunks chunks with
    | nil => exact absurd hvc hV
    | cons c rest => rfl
  have hrun : create_embeddings env chunks docId store =
      (true, (buildVectors docId 0 ((validChunks chunks).zip embeds)).foldl upsertOne store) := by
    unfold create_embeddings
    simp only [hchunks, hp, hvalid, hE, Bool.false_eq_true, if_false, if_neg]
    simp [foldl_toBatches]
  refine ⟨by rw [hrun], by rw [hrun], ?_, ?_, ?_⟩
  · rw [buildVectors_ids docId _ 0, List.range_eq_range']
  · intro v hv
    rcases buildVectors_meta docId _ 0 v hv with ⟨h₁, h₂, c, e, hc, h₃⟩
    exact ⟨h₁, h₂, c, (List.of_mem_zip hc).1, h₃⟩
  · intro r hr hne
    rw [hrun]
    exact mem_foldl_upsertOne _ store hr hne

theorem create_embeddings_invariants_witness :
    (create_embeddings createEnvOk [( "hello").data, ( "world").data] ( "doc").data
        [staleRec]).1 = true ∧
    (buildVectors ( "doc").data 0
        ((validChunks [( "hello").data, ( "world").data]).zip [[1], [2]])).map VRecord.id =
      (List.range ((validChunks [( "hello").data, ( "world").data]).zip
        [[(1 : ℚ)], [2]]).length).map (vecId ( "doc").data) ∧
    staleRec ∈ (create_embeddings createEnvOk [( "hello").data, ( "world").data]
        ( "doc").data [staleRec]).2 := by
  have h := create_embeddings_invariants createEnvOk
    [( "hello").data, ( "world").data] (( "doc").data) [staleRec] [[1], [2]]
    (by decide) (by decide) (by decide)
  exact ⟨h.1, h.2.2.1, h.2.2.2.2 staleRec (by decide) (by decide)⟩

/-! ### C3 / C4 — chunker lemmas -/

theorem sizeSum_append (a b : List Txt) : sizeSum (a ++ b) = sizeSum a + sizeSum b := by
  simp [sizeSum]

theorem joinSp_length : ∀ ch : List Txt, ch ≠ [] → (joinSp ch).length + 1 = sizeSum ch
  | [], h => absurd rfl h
  | [s], _ => by simp [joinSp, sizeSum]
  | s :: t :: r, _ => by
    have ih := joinSp_length (t :: r) (by simp)
    simp only [joinSp, sizeSum, List.map_cons, List.sum_cons, List.length_append,
      List.length_cons] at ih ⊢
    omega

theorem joinSp_ne_nil : ∀ ch : List Txt, ch ≠ [] → (∀ s ∈ ch, s ≠ []) → joinSp ch ≠ []
  | [], h, _ => absurd rfl h
  | [s], _, hs => by simpa [joinSp] using hs s (by simp)
  | s :: t :: r, _, _ => by simp [joinSp]

theorem normSentence_ne_nil (raw s : Txt) (h : normSentence raw = some s) : s ≠ [] := by
  unfold normSentence at h
  split_ifs at h with h1 h2
  · obtain rfl := Option.some.inj h
    simpa [List.isEmpty_iff] using h1
  · obtain rfl := Option.some.inj h
    simp

theorem foldl_raws_inv (m o : Nat) (Q : Txt → Prop) (P : ChunkSt → Prop)
    (hstep : ∀ st s, Q s → P st → P (stepS m o st s)) :
    ∀ (raws : List Txt) (st : ChunkSt),
      (∀ s ∈ raws.filterMap normSentence, Q s) → P st →
      P (raws.foldl (stepRaw m o) st) := by
  intro raws
  induction raws with
  | nil => exact fun st _ hP => hP
  | cons raw rest ih =>
    intro st hQ hP
    simp only [List.foldl_cons]
    cases hn : normSentence raw with
    | none =>
      simp only [List.filterMap_cons, hn] at hQ
      have hid : stepRaw m o st raw = st := by simp [stepRaw, hn]
      rw [hid]
      exact ih st hQ hP
    | some s =>
      simp only [List.filterMap_cons, hn] at hQ
      have hid : stepRaw m o st raw = stepS m o st s := by simp [stepRaw, hn]
      rw [hid]
      exact ih _ (fun x hx => hQ x (List.mem_cons_of_mem _ hx))
        (hstep st s (hQ s (List.mem_cons_self _ _)) hP)

theorem foldl_paras_inv (m o : Nat) (Q : Txt → Prop) (P : ChunkSt → Prop)
    (hstep : ∀ st s, Q s → P st → P (stepS m o st s)) :
    ∀ (paras : List Txt) (st : ChunkSt),
      (∀ para ∈ paras,
        ∀ s ∈ (splitOn2 '.' ' ' (newlineToSpace (trimL para))).filterMap normSentence, Q s) →
      P st → P (paras.foldl (procPara m o) st) := by
  intro paras
  induction paras with
  | nil => exact fun st _ hP => hP
  | cons para rest ih =>
    intro st hQ hP
    simp only [List.foldl_cons]
    apply ih _ (fun p hp => hQ p (List.mem_cons_of_mem _ hp))
    unfold procPara
    split_ifs with h
    · exact hP
    · exact foldl_raws_inv m o Q P hstep _ st (hQ para (List.mem_cons_self _ _)) hP

theorem sentence_mem_sentencesOf (text para s : Txt)
    (hp : para ∈ splitOn2 '\n' '\n' text)
    (hs : s ∈ (splitOn2 '.' ' ' (newlineToSpace (trimL para))).filterMap normSentence) :
    s ∈ sentencesOf text := by
  unfold sentencesOf
  exact List.mem_flatten.mpr ⟨_, List.mem_map_of_mem _ hp, hs⟩

theorem stepS_nonempty (m o : Nat) (st : ChunkSt) (s : Txt) (hs : s ≠ [])
    (h : chunkNonEmptyInv st) : chunkNonEmptyInv (stepS m o st s) := by
  obtain ⟨hch, hcur⟩ := h
  unfold stepS chunkNonEmptyInv
  split_ifs with h1 h2
  · constructor
    · intro ch hmem
      rcases List.mem_append.mp hmem with hmem | hmem
      · exact hch ch hmem
      · simp only [List.mem_singleton] at hmem
        subst hmem
        exact ⟨h1.2, hcur⟩
    · intro x hx
      rcases List.mem_append.mp hx with hx | hx
      · exact hcur x (List.drop_subset _ _ hx)
      · simp only [List.mem_singleton] at hx
        subst hx
        exact hs
  · constructor
    · intro ch hmem
      rcases List.mem_append.mp hmem with hmem | hmem
      · exact hch ch hmem
      · simp only [List.mem_singleton] at hmem
        subst hmem
        exact ⟨h1.2, hcur⟩
    · intro x hx
      simp only [List.mem_singleton] at hx
      subst hx
      exact hs
  · refine ⟨hch, ?_⟩
    intro x hx
    rcases List.mem_append.mp hx with hx | hx
    · exact hcur x hx
    · simp only [List.mem_singleton] at hx
      subst hx
      exact hs

theorem stepS_bound (m : Nat) (Q : Txt → Prop) (st : ChunkSt) (s : Txt) (hQ : Q s)
    (h : chunkBoundInv m Q st) : chunkBoundInv m Q (stepS m 0 st s) := by
  obtain ⟨hsize, hch, hcur⟩ := h
  have hsingle : chunkBound m Q [s] := by
    by_cases hlen : s.length ≤ m
    · left
      simpa [joinSp] using hlen
    · right
      exact ⟨s, rfl, by omega, hQ⟩
  unfold stepS chunkBoundInv
  split_ifs with h1 h2
  · exact absurd h2 (by simp)
  · refine ⟨by simp [sizeSum], ?_, fun _ => hsingle⟩
    intro ch hmem
    rcases List.mem_append.mp hmem with hmem | hmem
    · exact hch ch hmem
    · simp only [List.mem_singleton] at hmem
      subst hmem
      exact hcur h1.2
  · refine ⟨?_, hch, ?_⟩
    · show st.size + (s.length + 1) = sizeSum (st.cur ++ [s])
      rw [sizeSum_append, ← hsize]
      simp [sizeSum]
    · intro _
      show chunkBound m Q (st.cur ++ [s])
      by_cases hc : st.cur = []
      · rw [hc]
        simpa using hsingle
      · have hle : st.size + (s.length + 1) ≤ m := by
          by_contra hgt
          exact h1 ⟨by omega, hc⟩
        left
        have hjl : (joinSp (st.cur ++ [s])).length + 1 = sizeSum (st.cur ++ [s]) :=
          joinSp_length _ (by simp)
        have hsz : sizeSum (st.cur ++ [s]) = st.size + (s.length + 1) := by
          rw [sizeSum_append, ← hsize]
          simp [sizeSum]
        omega

theorem seededByLastTwo_append (l : List (List Txt)) (c : List Txt)
    (h1 : seededByLastTwo l = true)
    (h2 : ∀ lc, l.getLast? = some lc → 2 < lc.length →
      c.take 2 = lc.drop (lc.length - 2)) :
    seededByLastTwo (l ++ [c]) = true := by
  induction l with
  | nil => rfl
  | cons a tl ih =>
    cases tl with
    | nil =>
      simp only [List.cons_append, List.nil_append, seededByLastTwo, Bool.and_eq_true]
      refine ⟨?_, by simp [seededByLastTwo]⟩
      by_cases hlen : 2 < a.length
      · have hc := h2 a rfl hlen
        simp [hc]
      · have : a.length ≤ 2 := by omega
        simp [this]
    | cons b tl2 =>
      simp only [List.cons_append, seededByLastTwo, Bool.and_eq_true] at h1 ⊢
      refine ⟨h1.1, ?_⟩
      have := ih h1.2 (fun lc hlc hlen => h2 lc (by rw [List.getLast?_cons_cons]; exact hlc) hlen)
      simpa using this

theorem stepS_seedLink (m o : Nat) (ho : 0 < o) (st : ChunkSt) (s : Txt)
    (h : seedLinkInv st) : seedLinkInv (stepS m o st s) := by
  obtain ⟨hadj, hlink⟩ := h
  unfold stepS seedLinkInv
  split_ifs with h1 h2
  · constructor
    · exact seededByLastTwo_append _ _ hadj (fun lc hlc hlen => (hlink lc hlc hlen).1)
    · intro lc hlc hlen
      rw [List.getLast?_concat] at hlc
      obtain rfl := Option.some.inj hlc
      have hseedlen : (st.cur.drop (st.cur.length - 2)).length = 2 := by
        rw [List.length_drop]
        omega
      constructor
      · rw [List.take_append_of_le_length (by omega),
          List.take_of_length_le (by omega)]
      · simp only [List.length_append, List.length_cons, List.length_nil, hseedlen]
        omega
  · constructor
    · exact seededByLastTwo_append _ _ hadj (fun lc hlc hlen => (hlink lc hlc hlen).1)
    · intro lc hlc hlen
      rw [List.getLast?_concat] at hlc
      obtain rfl := Option.some.inj hlc
      exact absurd ⟨ho, hlen⟩ h2
  · refine ⟨hadj, ?_⟩
    intro lc hlc hlen
    obtain ⟨ht, hl⟩ := hlink lc hlc hlen
    refine ⟨?_, ?_⟩
    · rw [List.take_append_of_le_length hl]
      exact ht
    · simp only [List.length_append, List.length_cons, List.length_nil]
      omega

/-- C3 (amended): every chunk `split_text` emits is non-empty, for any
parameters; and with `overlap = 0` every chunk respects `max_chunk_size`
unless it is a single sentence that itself exceeds the bound.  (With
`overlap > 0` the bound can fail for multi-sentence chunks — see the
counterexample.) -/
theorem split_text_chunk_shape (text : Txt) (m o : Nat) :
    (∀ c ∈ split_text text m o, c ≠ []) ∧
    (∀ ch ∈ split_textLists text m 0,
      (joinSp ch).length ≤ m ∨ ∃ s, ch = [s] ∧ m < s.length ∧ s ∈ sentencesOf text) := by
  constructor
  · intro c hc
    unfold split_text at hc
    rcases List.mem_map.mp hc with ⟨ch, hch, rfl⟩
    unfold split_textLists at hch
    split_ifs at hch with htriv
    · simp at hch
    · have hinv : chunkNonEmptyInv
          ((splitOn2 '\n' '\n' text).foldl (procPara m o) ⟨[], [], 0⟩) :=
        foldl_paras_inv m o (fun t => t ≠ []) chunkNonEmptyInv
          (fun st s hs h => stepS_nonempty m o st s hs h)
          _ _
          (fun _ _ s hs => by
            rcases List.mem_filterMap.mp hs with ⟨raw, _, hn⟩
            exact normSentence_ne_nil raw s hn)
          ⟨by simp, by simp⟩
      rcases List.mem_append.mp hch with hm | hm
      · exact joinSp_ne_nil _ (hinv.1 ch hm).1 (hinv.1 ch hm).2
      · split_ifs at hm with hemp
        · simp at hm
        · simp only [List.mem_singleton] at hm
          subst hm
          exact joinSp_ne_nil _ (by simpa [List.isEmpty_iff] using hemp) hinv.2
  · intro ch hch
    unfold split_textLists at hch
    split_ifs at hch with htriv
    · simp at hch
    · have hinv : chunkBoundInv m (fun t => t ∈ sentencesOf text)
          ((splitOn2 '\n' '\n' text).foldl (procPara m 0) ⟨[], [], 0⟩) :=
        foldl_paras_inv m 0 (fun t => t ∈ sentencesOf text)
          (chunkBoundInv m (fun t => t ∈ sentencesOf text))
          (fun st s hs h => stepS_bound m _ st s hs h)
          _ _
          (fun para hp s hs => sentence_mem_sentencesOf text para s hp hs)
          ⟨by simp [sizeSum], by simp, fun hne => absurd rfl hne⟩
      rcases List.mem_append.mp hch with hm | hm
      · exact hinv.2.1 ch hm
      · split_ifs at hm with hemp
        · simp at hm
        · simp only [List.mem_singleton] at hm
          subst hm
          exact hinv.2.2 (by simpa [List.isEmpty_iff] using hemp)

/-- C3 counterexample (with the source's own parameter style, `overlap > 0`):
the chunk `"b. c. dddd."` of `split_text "a. b. c. dddd" 10 1` has length
11 > 10 even though every sentence of the input has length at most 10 —
so the oversize is not the claimed single-oversized-sentence exception. -/
theorem split_text_bound_cex :
    ( "b. c. dddd.").data ∈ split_text ( "a. b. c. dddd").data 10 1 ∧
    10 < ( "b. c. dddd.").data.length ∧
    (∀ s ∈ sentencesOf ( "a. b. c. dddd").data, s.length ≤ 10) := by
  decide

theorem split_text_chunk_shape_witness :
    ( "x.").data ≠ ([] : Txt) ∧
    ((joinSp [( "x.").data]).length ≤ 5 ∨
      ∃ s, [( "x.").data] = [s] ∧ 5 < s.length ∧ s ∈ sentencesOf ( "x. y").data) :=
  ⟨(split_text_chunk_shape (( "x. y").data) 5 0).1 (( "x.").data) (by decide),
   (split_text_chunk_shape (( "x. y").data) 5 0).2 [( "x.").data] (by decide)⟩

/-- C4 (amended): with `overlap > 0`, whenever a closed chunk has more than
two sentences, the next chunk starts with the closed chunk's trailing two
sentences — the seed width is the hard-coded `current_chunk[-2:]`, not the
`overlap` parameter. -/
theorem split_text_overlap_seeding (text : Txt) (m o : Nat) (ho : 0 < o) :
    seededByLastTwo (split_textLists text m o) = true := by
  unfold split_textLists
  split_ifs with htriv
  · rfl
  · have hinv : seedLinkInv
        ((splitOn2 '\n' '\n' text).foldl (procPara m o) ⟨[], [], 0⟩) :=
      foldl_paras_inv m o (fun _ => True) seedLinkInv
        (fun st s _ h => stepS_seedLink m o ho st s h)
        _ _ (fun _ _ _ _ => trivial)
        ⟨rfl, by simp⟩
    show seededByLastTwo
        (((splitOn2 '\n' '\n' text).foldl (procPara m o) ⟨[], [], 0⟩).chunks ++
          (if ((splitOn2 '\n' '\n' text).foldl (procPara m o) ⟨[], [], 0⟩).cur.isEmpty
            then [] else [((splitOn2 '\n' '\n' text).foldl (procPara m o) ⟨[], [], 0⟩).cur])) =
      true
    by_cases hemp : ((splitOn2 '\n' '\n' text).foldl (procPara m o) ⟨[], [], 0⟩).cur.isEmpty
    · rw [if_pos hemp, List.append_nil]
      exact hinv.1
    · rw [if_neg hemp]
      exact seededByLastTwo_append _ _ hinv.1 (fun lc hlc hlen => (hinv.2 lc hlc hlen).1)

/-- C4 counterexample: at `overlap = 1`, the chunk following
`["a.", "b.", "c."]` is `["b.", "c.", "dddd."]`: it starts with the trailing
TWO sentences of its predecessor, not the trailing `overlap = 1` sentence. -/
theorem split_text_overlap_cex :
    split_textLists ( "a. b. c. dddd").data 10 1 =
      [[( "a.").data, ( "b.").data, ( "c.").data],
       [( "b.").data, ( "c.").data, ( "dddd.").data]] ∧
    [( "b.").data, ( "c.").data, ( "dddd.").data].take 1 ≠
      [( "a.").data, ( "b.").data, ( "c.").data].drop 2 := by
  decide

theorem split_text_overlap_seeding_witness :
    seededByLastTwo (split_textLists ( "a. b. c. dddd").data 10 1) = true :=
  split_text_overlap_seeding (( "a. b. c. dddd").data) 10 1 (by decide)

/-! ### C1 — the direct-extraction fallback of `ask_question` -/

theorem half_eq : half = 1 / 2 := by
  rw [half, Rat.divInt_eq_div]
  norm_num

/-- C1 (amended): the fallback branch of `ask_question` tests only for empty
sources and confidence `0.0` in the `query_rag` response — a condition that
holds after zero-match retrieval (first part), but also after any
operational failure inside `query_rag` (see the counterexample).  When that
test passes and the re-extracted text is sufficient (non-empty, at least 50
characters once stripped) and the direct generation call returns a
non-empty answer, the response has confidence exactly `0.5` and empty
sources (second part); when retrieval found zero matches and the
re-extracted text is too short, the canonical no-information answer with
confidence `0.0` and empty sources is returned (third part). -/
theorem ask_question_fallback_behavior :
    (∀ (env : RagEnv) (d : Txt) (embeds : List (List ℚ)) (qvec : List ℚ),
      env.pineconeAvailable = true →
      firstEmbed env.embedQ1 env.embedQ2 env.embedQ3 = .ok embeds →
      embeds.head? = some qvec → env.indexErr = none →
      indexQuery env.sim env.store qvec d 5 = [] →
      query_rag env d 5 =
        { answer := noInfoMsg, sources := [], confidence := 0, chunks_used := none }) ∧
    (∀ (env : AskEnv) (d textE a : Txt),
      (query_rag env.rag d 5).sources = [] → (query_rag env.rag d 5).confidence = 0 →
      env.docRow = true → env.download = .ok () →
      extract_text_from_file env.fbExtract (env.title.getD ( "document").data) = .ok textE →
      textE ≠ [] → 50 ≤ (trimL textE).length →
      env.genDirect = .ok a → a ≠ [] →
      askQuestionResponse env d =
        { answer := a, sources := [], confidence := 1 / 2, chunks_used := none }) ∧
    (∀ (env : AskEnv) (d : Txt) (embeds : List (List ℚ)) (qvec : List ℚ) (textE : Txt),
      env.rag.pineconeAvailable = true →
      firstEmbed env.rag.embedQ1 env.rag.embedQ2 env.rag.embedQ3 = .ok embeds →
      embeds.head? = some qvec → env.rag.indexErr = none →
      indexQuery env.rag.sim env.rag.store qvec d 5 = [] →
      extract_text_from_file env.fbExtract (env.title.getD ( "document").data) = .ok textE →
      (trimL textE).length < 50 →
      askQuestionResponse env d =
        { answer := noInfoMsg, sources := [], confidence := 0, chunks_used := none }) := by
  refine ⟨?_, ?_, ?_⟩
  · intro env d embeds qvec hp he hh hi hq
    simp [query_rag, queryRagAttempt, hp, he, hh, hi, hq]
  · intro env d textE a hsrc hconf hrow hdl hext htE h50 hgen ha
    unfold askQuestionResponse
    rw [half_eq] at *
    simp [hsrc, hconf, hrow, hdl, hext, hgen, List.isEmpty_iff, htE, ha, h50, half_eq]
  · intro env d embeds qvec textE hp he hh hi hq hext h50
    have hrag : query_rag env.rag d 5 =
        { answer := noInfoMsg, sources := [], confidence := 0, chunks_used := none } := by
      simp [query_rag, queryRagAttempt, hp, he, hh, hi, hq]
    have hcond : ¬(¬textE.isEmpty = true ∧ 50 ≤ (trimL textE).length) := by
      intro hcontra
      omega
    unfold askQuestionResponse
    rw [hrag]
    cases hrow : env.docRow with
    | false => simp [hrow]
    | true =>
      cases hdl : env.download with
      | error err => simp [hrow, hdl]
      | ok u =>
        cases u
        simp [hrow, hdl, hext, hcond]
        intro _ hcontra
        exact absurd hcontra (by omega)

/-- C1 counterexample: retrieval succeeded with one match, but generation
failed, so `query_rag` reported empty sources and confidence `0.0` — and
the fallback branch then ran anyway, returning the direct answer with
confidence `0.5`.  Second part: with sufficient re-extracted text but a
failing direct generation call, the fallback yields confidence `0.0`, not
`0.5`. -/
theorem ask_question_fallback_cex :
    indexQuery askEnvGenFail.rag.sim askEnvGenFail.rag.store [1] ( "d").data 5 ≠ [] ∧
    query_rag askEnvGenFail.rag ( "d").data 5 =
      { answer := ragErrorMsgPre ++ ( "boom").data, sources := [], confidence := 0,
        chunks_used := none } ∧
    askQuestionResponse askEnvGenFail ( "d").data =
      { answer := ( "X").data, sources := [], confidence := half, chunks_used := none } ∧
    askQuestionResponse askEnvFbGenFail ( "d").data =
      { answer := noInfoMsg, sources := [], confidence := 0, chunks_used := none } := by
  decide

theorem ask_question_fallback_behavior_witness :
    query_rag askEnvZeroMatch.rag ( "d").data 5 =
      { answer := noInfoMsg, sources := [], confidence := 0, chunks_used := none } ∧
    askQuestionResponse askEnvZeroMatch ( "d").data =
      { answer := ( "X").data, sources := [], confidence := 1 / 2, chunks_used := none } ∧
    askQuestionResponse askEnvTinyText ( "d").data =
      { answer := noInfoMsg, sources := [], confidence := 0, chunks_used := none } :=
  ⟨ask_question_fallback_behavior.1 askEnvZeroMatch.rag (( "d").data) [[1]] [1]
     (by decide) (by decide) (by decide) (by decide) (by decide),
   ask_question_fallback_behavior.2.1 askEnvZeroMatch (( "d").data)
     (( "aaaaaaaaaaaaaaaaaaaaaaaaaaaaaaaaaaaaaaaaaaaaaaaaaaaaaaaaaaaa").data) (( "X").data)
     (by decide) (by decide) (by decide) (by decide) (by decide) (by decide) (by decide)
     (by decide) (by decide),
   ask_question_fallback_behavior.2.2 askEnvTinyText (( "d").data) [[1]] [1] (( "abc").data)
     (by decide) (by decide) (by decide) (by decide) (by decide) (by decide) (by decide)⟩

end DocAnalyzer
